import Mathlib

/-!
Shallow embedding of the ink! ERC-20 contract in `src/lib.rs` (module `erc20`).

The storage struct `Erc20` holds a `total_supply : Lazy<Balance>`, a
`balances : StorageHashMap<AccountId, Balance>` and an
`allowances : StorageHashMap<(AccountId, AccountId), Balance>`.  `Balance`
is `u128`; we embed balances as `Nat`, taking the sum modulo `2 ^ 128`
exactly where the source performs an unchecked `u128` addition.  Storage
hash maps are embedded as association lists with a replacing insert.
-/

namespace Erc20Spec

abbrev AccountId := Nat

/-- The modulus of the `u128` type used for `Balance` in the source. -/
def U128_MOD : Nat := 2 ^ 128

/-- `StorageHashMap::get`: the value stored under `k`, if any. -/
def mapGet {α β : Type} [DecidableEq α] : List (α × β) → α → Option β
  | [], _ => none
  | (k', v) :: rest, k => if k' = k then some v else mapGet rest k

/-- `StorageHashMap::insert`: store `v` under `k`, replacing any prior entry. -/
def mapInsert {α β : Type} [DecidableEq α] : List (α × β) → α → β → List (α × β)
  | [], k, v => [(k, v)]
  | (k', v') :: rest, k, v =>
      if k' = k then (k, v) :: rest else (k', v') :: mapInsert rest k v

/-- The contract storage, src/lib.rs lines 13-18. -/
structure Erc20 where
  total_supply : Nat
  balances : List (AccountId × Nat)
  allowances : List ((AccountId × AccountId) × Nat)
deriving DecidableEq

/-- The error enum, src/lib.rs lines 41-44.  It has exactly the two
variants `InsufficientBalance` and `InsufficientAllowance`; there is no
`Overflow` variant in the source. -/
inductive Error where
  | InsufficientBalance
  | InsufficientAllowance
deriving DecidableEq

/-- The two event types, src/lib.rs lines 20-36.  `Transfer` carries
optional `from`/`to` accounts and a value; `Approval` carries owner,
spender and value. -/
inductive Event where
  | Transfer (from_ : Option AccountId) (to_ : Option AccountId) (value : Nat)
  | Approval (owner : AccountId) (spender : AccountId) (value : Nat)
deriving DecidableEq

/-- The constructor `new`, src/lib.rs lines 52-67: a fresh storage with
`balances = {caller ↦ initial_supply}`, empty allowances, and the
`Transfer {from: None, to: Some(caller), value: initial_supply}` event. -/
def new (caller : AccountId) (initial_supply : Nat) : Erc20 × Event :=
  ({ total_supply := initial_supply
     balances := mapInsert [] caller initial_supply
     allowances := [] },
   Event.Transfer none (some caller) initial_supply)

/-- The balance lookup expression of src/lib.rs line 79,
`self.balances.get(&owner).copied().unwrap_or(0)`, which the source
computes in `balance_of` (and whose result the private
`transfer_from_to` relies on at lines 123 and 128).  Note the source's
public `balance_of` discards this expression with a trailing semicolon;
see `balance_of_method`. -/
def balance_of (s : Erc20) (owner : AccountId) : Nat :=
  (mapGet s.balances owner).getD 0

/-- The public `balance_of` message exactly as written, src/lib.rs lines
78-80: the lookup expression is terminated by a semicolon, so the body's
value is the unit value, not the looked-up `Balance` the signature and
doc comment promise. -/
def balance_of_method (s : Erc20) (owner : AccountId) : Unit :=
  let _ := (mapGet s.balances owner).getD 0
  ()

/-- The public `total_supply` message as written, src/lib.rs lines 71-73:
the body `*self.total_supply()` invokes the method itself (Rust method
call syntax never calls the `total_supply` field), so the call recurses
without ever reading the stored field.  Embedded with explicit fuel; the
result is `none` for every fuel, i.e. no amount of unfolding produces a
value. -/
def total_supply_method : Nat → Erc20 → Option Nat
  | 0, _ => none
  | n + 1, s => total_supply_method n s

/-- Modelled from the spec: src/lib.rs line 104 calls
`self.allowance(from, caller)`, a method that is not defined anywhere in
src/lib.rs (the defined query, `allowances` at lines 85-87, reads the
wrong map with the wrong key shape and discards its result).  Following
spec section 4.2, `allowance_of(owner, spender)` "returns the stored
amount or 0": a lookup in the allowances map under `(owner, spender)`. -/
def allowance (s : Erc20) (owner spender : AccountId) : Nat :=
  (mapGet s.allowances (owner, spender)).getD 0

/-- The private `transfer_from_to`, src/lib.rs lines 122-136: check the
source balance, debit the source, credit the destination with an
unchecked `u128` addition (embedded as addition modulo `2 ^ 128`), emit
the `Transfer` event.  Returns the result, the resulting storage, and
the list of emitted events. -/
def transfer_from_to (s : Erc20) (from_ to_ : AccountId) (value : Nat) :
    Except Error Unit × Erc20 × List Event :=
  let from_balance := balance_of s from_
  if from_balance < value then
    (Except.error Error.InsufficientBalance, s, [])
  else
    let s1 : Erc20 := { s with balances := mapInsert s.balances from_ (from_balance - value) }
    let to_balance := balance_of s1 to_
    let s2 : Erc20 :=
      { s1 with balances := mapInsert s1.balances to_ ((to_balance + value) % U128_MOD) }
    (Except.ok (), s2, [Event.Transfer (some from_) (some to_) value])

/-- The public `transfer` message, src/lib.rs lines 94-97: delegates to
`transfer_from_to` with the caller as source.  (The source discards the
inner `Result` with a trailing semicolon and falls off the end of a
`Result`-returning function; per the declared return type and the doc
comment on lines 90-92 the result is propagated here.) -/
def transfer (s : Erc20) (caller to_ : AccountId) (value : Nat) :
    Except Error Unit × Erc20 × List Event :=
  transfer_from_to s caller to_ value

/-- The public `transfer_from` message, src/lib.rs lines 102-111: read
the allowance of `(from, caller)`, fail with `InsufficientAllowance` if
below `value`, otherwise run `transfer_from_to` (propagating its error
with `?` before any allowance write) and only then store the decremented
allowance. -/
def transfer_from (s : Erc20) (caller from_ to_ : AccountId) (value : Nat) :
    Except Error Unit × Erc20 × List Event :=
  let a := allowance s from_ caller
  if a < value then
    (Except.error Error.InsufficientAllowance, s, [])
  else
    match transfer_from_to s from_ to_ value with
    | (Except.error e, s', evs) => (Except.error e, s', evs)
    | (Except.ok _, s', evs) =>
        (Except.ok (),
         { s' with allowances := mapInsert s'.allowances (from_, caller) (a - value) },
         evs)

/-- Modelled from the spec: src/lib.rs declares the `Approval` event
(lines 29-36) and carries `approve`'s doc comment (lines 99-101, pasted
above `transfer_from`), but defines no `approve` method.  Following spec
section 4.3: `approve(caller, spender, value)` overwrites the stored
allowance of `(caller, spender)` with `value` and emits
`Approval {owner: caller, spender, value}`; it always succeeds. -/
def approve (s : Erc20) (caller spender : AccountId) (value : Nat) : Erc20 × Event :=
  ({ s with allowances := mapInsert s.allowances (caller, spender) value },
   Event.Approval caller spender value)

/-- The sum of all stored account balances. -/
def sumBalances (s : Erc20) : Nat := (s.balances.map Prod.snd).sum

/-- States reachable from construction by successful `transfer` and
`transfer_from` calls (spec section 8, conservation).  `initial_supply`
is a `u128` value, hence below `2 ^ 128`. -/
inductive Reachable : Erc20 → Prop where
  | construct (caller : AccountId) (initial_supply : Nat)
      (h : initial_supply < U128_MOD) :
      Reachable (new caller initial_supply).1
  | step_transfer {s s' : Erc20} (caller to_ : AccountId) (value : Nat)
      (evs : List Event) (hs : Reachable s)
      (h : transfer s caller to_ value = (Except.ok (), s', evs)) :
      Reachable s'
  | step_transfer_from {s s' : Erc20} (caller from_ to_ : AccountId) (value : Nat)
      (evs : List Event) (hs : Reachable s)
      (h : transfer_from s caller from_ to_ value = (Except.ok (), s', evs)) :
      Reachable s'

-- Basic association-list lemmas

theorem mapGet_mapInsert_self {α β : Type} [DecidableEq α]
    (m : List (α × β)) (k : α) (v : β) :
    mapGet (mapInsert m k v) k = some v := by
  induction m with
  | nil => simp [mapInsert, mapGet]
  | cons hd tl ih =>
      obtain ⟨k', v'⟩ := hd
      by_cases hk : k' = k
      · simp [mapInsert, hk, mapGet]
      · simp [mapInsert, hk, mapGet, ih]

theorem mapGet_mapInsert_ne {α β : Type} [DecidableEq α]
    (m : List (α × β)) (k a : α) (v : β) (h : a ≠ k) :
    mapGet (mapInsert m k v) a = mapGet m a := by
  induction m with
  | nil =>
      simp only [mapInsert, mapGet]
      rw [if_neg (fun hh => h (Eq.symm hh))]
  | cons hd tl ih =>
      obtain ⟨k', v'⟩ := hd
      by_cases hk : k' = k
      · subst hk
        simp only [mapInsert, if_pos rfl, mapGet]
        rw [if_neg (fun hh => h (Eq.symm hh)), if_neg (fun hh => h (Eq.symm hh))]
      · by_cases ha : k' = a
        · subst ha
          simp [mapInsert, if_neg hk, mapGet]
        · simp only [mapInsert, if_neg hk, mapGet, if_neg ha, ih]

theorem sum_mapInsert {α : Type} [DecidableEq α]
    (m : List (α × Nat)) (k : α) (v : Nat) :
    ((mapInsert m k v).map Prod.snd).sum + (mapGet m k).getD 0
      = (m.map Prod.snd).sum + v := by
  induction m with
  | nil => simp [mapInsert, mapGet]
  | cons hd tl ih =>
      obtain ⟨k', v'⟩ := hd
      by_cases hk : k' = k
      · simp [mapInsert, hk, mapGet]
        omega
      · simp [mapInsert, hk, mapGet]
        omega

theorem mapGet_le_sum {α : Type} [DecidableEq α]
    (m : List (α × Nat)) (k : α) :
    (mapGet m k).getD 0 ≤ (m.map Prod.snd).sum := by
  induction m with
  | nil => simp [mapGet]
  | cons hd tl ih =>
      obtain ⟨k', v'⟩ := hd
      by_cases hk : k' = k
      · simp [mapGet, hk]
      · simp [mapGet, hk]
        omega

-- Characterization of `transfer_from_to`

theorem transfer_from_to_fail (s : Erc20) (from_ to_ : AccountId) (value : Nat)
    (hb : balance_of s from_ < value) :
    transfer_from_to s from_ to_ value = (Except.error Error.InsufficientBalance, s, []) := by
  simp only [transfer_from_to, if_pos hb]

theorem transfer_from_to_ok (s : Erc20) (from_ to_ : AccountId) (value : Nat)
    (hb : ¬ balance_of s from_ < value) :
    transfer_from_to s from_ to_ value =
      (Except.ok (),
       { s with balances :=
                  mapInsert (mapInsert s.balances from_ (balance_of s from_ - value)) to_
                    ((balance_of
                        { s with balances :=
                                   mapInsert s.balances from_ (balance_of s from_ - value) }
                        to_ + value) % U128_MOD) },
       [Event.Transfer (some from_) (some to_) value]) := by
  simp only [transfer_from_to, if_neg hb]

theorem transfer_from_to_error_frame (s : Erc20) (from_ to_ : AccountId) (value : Nat)
    (e : Error) (s' : Erc20) (evs : List Event)
    (h : transfer_from_to s from_ to_ value = (Except.error e, s', evs)) :
    s' = s ∧ evs = [] ∧ e = Error.InsufficientBalance := by
  by_cases hb : balance_of s from_ < value
  · rw [transfer_from_to_fail s from_ to_ value hb] at h
    simp only [Prod.mk.injEq, Except.error.injEq] at h
    exact ⟨h.2.1.symm, h.2.2.symm, h.1.symm⟩
  · rw [transfer_from_to_ok s from_ to_ value hb] at h
    simp at h

/-- A successful `transfer_from_to` from a conserved state conserves the
sum of balances and leaves the total supply untouched (the unchecked
credit never wraps because the sum of balances fits in a `u128`). -/
theorem transfer_from_to_ok_sum (s : Erc20) (from_ to_ : AccountId) (value : Nat)
    (s' : Erc20) (evs : List Event)
    (hsum : sumBalances s = s.total_supply) (hlt : s.total_supply < U128_MOD)
    (h : transfer_from_to s from_ to_ value = (Except.ok (), s', evs)) :
    sumBalances s' = s'.total_supply ∧ s'.total_supply = s.total_supply := by
  by_cases hb : balance_of s from_ < value
  · rw [transfer_from_to_fail s from_ to_ value hb] at h
    simp at h
  · rw [transfer_from_to_ok s from_ to_ value hb] at h
    simp only [Prod.mk.injEq] at h
    obtain ⟨-, hs', -⟩ := h
    subst hs'
    refine ⟨?_, rfl⟩
    have h1 := sum_mapInsert s.balances from_ (balance_of s from_ - value)
    have h2 := sum_mapInsert
      (mapInsert s.balances from_ (balance_of s from_ - value)) to_
      ((balance_of
          { s with balances := mapInsert s.balances from_ (balance_of s from_ - value) }
          to_ + value) % U128_MOD)
    have hfb : (mapGet s.balances from_).getD 0 = balance_of s from_ := rfl
    have htb : (mapGet (mapInsert s.balances from_ (balance_of s from_ - value)) to_).getD 0
        = balance_of
            { s with balances := mapInsert s.balances from_ (balance_of s from_ - value) }
            to_ := rfl
    have hfb_le := mapGet_le_sum s.balances from_
    have htb_le := mapGet_le_sum (mapInsert s.balances from_ (balance_of s from_ - value)) to_
    rw [hfb] at h1 hfb_le
    rw [htb] at h2 htb_le
    simp only [sumBalances] at hsum ⊢
    have hnowrap :
        (balance_of
            { s with balances := mapInsert s.balances from_ (balance_of s from_ - value) }
            to_ + value) % U128_MOD
          = balance_of
              { s with balances := mapInsert s.balances from_ (balance_of s from_ - value) }
              to_ + value := by
      apply Nat.mod_eq_of_lt
      omega
    rw [hnowrap] at h2 ⊢
    omega

/-- Every reachable state is conserved and its supply fits in a `u128`. -/
theorem reachable_invariant (s : Erc20) (hs : Reachable s) :
    sumBalances s = s.total_supply ∧ s.total_supply < U128_MOD := by
  induction hs with
  | construct caller initial_supply h =>
      exact ⟨by simp [new, sumBalances, mapInsert], h⟩
  | step_transfer caller to_ value evs hs h ih =>
      obtain ⟨hsum, hlt⟩ := ih
      have hres := transfer_from_to_ok_sum _ _ _ _ _ _ hsum hlt h
      exact ⟨hres.1, hres.2 ▸ hlt⟩
  | step_transfer_from caller from_ to_ value evs hs h ih =>
      obtain ⟨hsum, hlt⟩ := ih
      simp only [transfer_from] at h
      split at h
      · simp at h
      · split at h
        next e s'' evs'' heq =>
          simp at h
        next u s'' evs'' heq =>
          simp only [Prod.mk.injEq] at h
          obtain ⟨-, hs', -⟩ := h
          have hres := transfer_from_to_ok_sum _ _ _ _ _ _ hsum hlt heq
          rw [← hs']
          exact ⟨hres.1, hres.2 ▸ hlt⟩

/-- Claim C1: for every sequence of successful `transfer` /
`transfer_from` calls starting from construction, the sum of all account
balances equals `total_supply` (conservation law). -/
theorem conservation_law (s : Erc20) (hs : Reachable s) :
    sumBalances s = s.total_supply :=
  (reachable_invariant s hs).1

/-- Witness for C1: the conservation law applied to the concrete state
reached by constructing with supply 100 as account 1 and transferring 30
to account 2. -/
theorem conservation_law_witness :
    sumBalances (transfer (new 1 100).1 1 2 30).2.1
      = ((transfer (new 1 100).1 1 2 30).2.1).total_supply :=
  conservation_law _
    (Reachable.step_transfer 1 2 30 (transfer (new 1 100).1 1 2 30).2.2
      (Reachable.construct 1 100 (by decide))
      (by rfl))

/-- Claim C2: for `transfer_from(from, to, value)`, a sufficient
allowance of `(from, caller)` combined with an insufficient balance of
`from` fails with `InsufficientBalance`, leaving the whole state — in
particular the stored allowance of `(from, caller)` — exactly as before
the call; and on any failure of `transfer_from` the state is unchanged. -/
theorem transfer_from_insufficient_balance_all_or_nothing
    (s : Erc20) (caller from_ to_ : AccountId) (value : Nat) :
    (value ≤ allowance s from_ caller → balance_of s from_ < value →
      transfer_from s caller from_ to_ value
        = (Except.error Error.InsufficientBalance, s, [])) ∧
    (∀ e s' evs, transfer_from s caller from_ to_ value = (Except.error e, s', evs) →
      s' = s) := by
  constructor
  · intro ha hb
    have hna : ¬ allowance s from_ caller < value := by omega
    simp only [transfer_from, if_neg hna, transfer_from_to_fail s from_ to_ value hb]
  · intro e s' evs h
    simp only [transfer_from] at h
    split at h
    · simp only [Prod.mk.injEq] at h
      exact h.2.1.symm
    · split at h
      next e2 s2 evs2 heq =>
        simp only [Prod.mk.injEq] at h
        obtain ⟨-, hs, -⟩ := h
        have hframe := transfer_from_to_error_frame s from_ to_ value e2 s2 evs2 heq
        rw [← hs]
        exact hframe.1
      next u s2 evs2 heq =>
        simp at h

/-- Witness for C2: at a concrete state where the spender's allowance is
5 but the source balance is 2, a delegated transfer of 3 fails with
`InsufficientBalance` and the state is returned untouched. -/
theorem transfer_from_insufficient_balance_all_or_nothing_witness :
    transfer_from ⟨2, [(1, 2)], [((1, 2), 5)]⟩ 2 1 3 3
      = (Except.error Error.InsufficientBalance, ⟨2, [(1, 2)], [((1, 2), 5)]⟩, []) :=
  (transfer_from_insufficient_balance_all_or_nothing ⟨2, [(1, 2)], [((1, 2), 5)]⟩ 2 1 3 3).1
    (by decide) (by decide)

/-- Counterexample to C4 as stated: with account 2 holding the maximal
`u128` value, a credit of one more unit does not fail — the source has
no `Overflow` error to fail with — the call succeeds and account 2's
stored balance silently wraps to 0. -/
theorem unchecked_credit_counterexample :
    (transfer_from_to ⟨2 ^ 128 - 1, [(1, 1), (2, 2 ^ 128 - 1)], []⟩ 1 2 1).1
        = Except.ok () ∧
      balance_of (transfer_from_to ⟨2 ^ 128 - 1, [(1, 1), (2, 2 ^ 128 - 1)], []⟩ 1 2 1).2.1 2
        = 0 :=
  ⟨rfl, rfl⟩

/-- Claim C4, amended: the source's error type has no `Overflow` variant
(its only variants are `InsufficientBalance` and `InsufficientAllowance`)
and the credit in `transfer_from_to` is an unchecked `u128` addition that
wraps; however, from any conserved state with a representable supply the
credit never overflows: a successful call conserves the balance sum. -/
theorem no_overflow_variant_and_conserved_credit
    (s : Erc20) (from_ to_ : AccountId) (value : Nat) (s' : Erc20) (evs : List Event)
    (hsum : sumBalances s = s.total_supply) (hlt : s.total_supply < U128_MOD)
    (h : transfer_from_to s from_ to_ value = (Except.ok (), s', evs)) :
    (∀ e : Error, e = Error.InsufficientBalance ∨ e = Error.InsufficientAllowance) ∧
    sumBalances s' = s.total_supply := by
  refine ⟨fun e => by cases e <;> simp, ?_⟩
  have hres := transfer_from_to_ok_sum s from_ to_ value s' evs hsum hlt h
  omega

/-- Witness for C4's amended statement, on the state constructed with
supply 100 followed by a successful internal transfer of 30. -/
theorem no_overflow_variant_and_conserved_credit_witness :
    (∀ e : Error, e = Error.InsufficientBalance ∨ e = Error.InsufficientAllowance) ∧
    sumBalances (transfer_from_to (new 1 100).1 1 2 30).2.1 = ((new 1 100).1).total_supply :=
  no_overflow_variant_and_conserved_credit (new 1 100).1 1 2 30
    (transfer_from_to (new 1 100).1 1 2 30).2.1
    (transfer_from_to (new 1 100).1 1 2 30).2.2
    (by decide) (by decide) (by rfl)

/-- Claim C5 (code bug): the `total_supply` message as written never
returns a value — its body invokes the method itself, so no finite
unfolding fuel produces a result — contradicting the claim that the
query returns the stored constant and terminates. -/
theorem total_supply_method_diverges (fuel : Nat) (s : Erc20) :
    total_supply_method fuel s = none := by
  induction fuel with
  | zero => rfl
  | succ n ih => exact ih

/-- Claim C6: a self-transfer of `value ≤ balance_of caller` (the
balance being a representable `u128` value) succeeds, leaves the
caller's balance unchanged, and emits exactly one `Transfer` event whose
two endpoints both equal the caller. -/
theorem self_transfer_preserves_balance (s : Erc20) (caller : AccountId) (value : Nat)
    (hv : value ≤ balance_of s caller) (hrep : balance_of s caller < U128_MOD) :
    (transfer s caller caller value).1 = Except.ok () ∧
    balance_of (transfer s caller caller value).2.1 caller = balance_of s caller ∧
    (transfer s caller caller value).2.2
      = [Event.Transfer (some caller) (some caller) value] := by
  have hb : ¬ balance_of s caller < value := by omega
  simp only [transfer, transfer_from_to_ok s caller caller value hb]
  refine ⟨trivial, ?_, trivial⟩
  have htb : balance_of
      { s with balances := mapInsert s.balances caller (balance_of s caller - value) }
      caller = balance_of s caller - value := by
    show (mapGet (mapInsert s.balances caller (balance_of s caller - value)) caller).getD 0
      = balance_of s caller - value
    rw [mapGet_mapInsert_self]
    rfl
  rw [htb, Nat.sub_add_cancel hv, Nat.mod_eq_of_lt hrep]
  show (mapGet (mapInsert (mapInsert s.balances caller (balance_of s caller - value))
      caller (balance_of s caller)) caller).getD 0 = balance_of s caller
  rw [mapGet_mapInsert_self]
  rfl

/-- Witness for C6: self-transfer of 40 by account 1 holding 100. -/
theorem self_transfer_preserves_balance_witness :
    (transfer (new 1 100).1 1 1 40).1 = Except.ok () ∧
    balance_of (transfer (new 1 100).1 1 1 40).2.1 1 = balance_of (new 1 100).1 1 ∧
    (transfer (new 1 100).1 1 1 40).2.2 = [Event.Transfer (some 1) (some 1) 40] :=
  self_transfer_preserves_balance (new 1 100).1 1 40 (by decide) (by decide)

/-- Claim C7 (allowance granting modelled from the spec, the source
defining no `approve` method): `approve` is a total function — it always
succeeds — it emits an `Approval` event, and a second approval
overwrites rather than adds to the first: after approving `v1` and then
`v2` for the same spender the stored allowance is `v2` (so 50 then 30
leaves 30, not 80). -/
theorem approve_overwrites (s : Erc20) (caller spender : AccountId) (v1 v2 : Nat) :
    allowance (approve (approve s caller spender v1).1 caller spender v2).1 caller spender
        = v2 ∧
      (approve s caller spender v1).2 = Event.Approval caller spender v1 := by
  constructor
  · show (mapGet (mapInsert (mapInsert s.allowances (caller, spender) v1)
        (caller, spender) v2) (caller, spender)).getD 0 = v2
    rw [mapGet_mapInsert_self]
    rfl
  · rfl

/-- Claim C9: every `transfer` call, successful or failed, leaves the
allowance map and the total supply unchanged, and does not touch the
stored balance entry of any account other than the caller and the
recipient. -/
theorem transfer_frame (s : Erc20) (caller to_ : AccountId) (value : Nat) :
    (transfer s caller to_ value).2.1.allowances = s.allowances ∧
    (transfer s caller to_ value).2.1.total_supply = s.total_supply ∧
    ∀ a : AccountId, a ≠ caller → a ≠ to_ →
      mapGet (transfer s caller to_ value).2.1.balances a = mapGet s.balances a := by
  by_cases hb : balance_of s caller < value
  · simp only [transfer, transfer_from_to_fail s caller to_ value hb]
    exact ⟨trivial, trivial, fun a h1 h2 => trivial⟩
  · simp only [transfer, transfer_from_to_ok s caller to_ value hb]
    refine ⟨trivial, trivial, fun a h1 h2 => ?_⟩
    show mapGet
        (mapInsert (mapInsert s.balances caller (balance_of s caller - value)) to_
          ((balance_of
              { s with balances := mapInsert s.balances caller (balance_of s caller - value) }
              to_ + value) % U128_MOD)) a
      = mapGet s.balances a
    rw [mapGet_mapInsert_ne _ _ _ _ h2, mapGet_mapInsert_ne _ _ _ _ h1]

/-- Witness for C9: after account 1 transfers 30 to account 2, the
stored balance entry of the uninvolved account 3 is unchanged. -/
theorem transfer_frame_witness :
    mapGet (transfer (new 1 100).1 1 2 30).2.1.balances 3 = mapGet ((new 1 100).1).balances 3 :=
  (transfer_frame (new 1 100).1 1 2 30).2.2 3 (by decide) (by decide)

/-- Claim C10: when the caller of `transfer_from` is the source account
itself, the call is still gated by the self-allowance of
`(from, from)` — it fails with `InsufficientAllowance` when that
allowance is below `value`, and on success that self-allowance is
decremented by `value`; an owner gets no implicit allowance over their
own balance. -/
theorem transfer_from_self_gated (s : Erc20) (from_ to_ : AccountId) (value : Nat) :
    (allowance s from_ from_ < value →
      transfer_from s from_ from_ to_ value
        = (Except.error Error.InsufficientAllowance, s, [])) ∧
    (∀ s' evs, transfer_from s from_ from_ to_ value = (Except.ok (), s', evs) →
      allowance s' from_ from_ = allowance s from_ from_ - value) := by
  constructor
  · intro ha
    simp only [transfer_from, if_pos ha]
  · intro s' evs h
    simp only [transfer_from] at h
    split at h
    · simp at h
    · split at h
      next e2 s2 evs2 heq => simp at h
      next u s2 evs2 heq =>
        simp only [Prod.mk.injEq] at h
        obtain ⟨-, hs, -⟩ := h
        rw [← hs]
        show (mapGet (mapInsert s2.allowances (from_, from_)
            (allowance s from_ from_ - value)) (from_, from_)).getD 0
          = allowance s from_ from_ - value
        rw [mapGet_mapInsert_self]
        rfl

/-- Witness for C10: account 1 holds 100 but has no self-allowance, so
its own delegated transfer of 1 fails with `InsufficientAllowance`. -/
theorem transfer_from_self_gated_witness :
    transfer_from ⟨100, [(1, 100)], []⟩ 1 1 2 1
      = (Except.error Error.InsufficientAllowance, ⟨100, [(1, 100)], []⟩, []) :=
  (transfer_from_self_gated ⟨100, [(1, 100)], []⟩ 1 2 1).1 (by decide)

end Erc20Spec
